import Mathlib

/-!
Verification of the candlestick outlier-detection-and-correction pass of the
Binance API server (`src/binance_server.js`, function `getCandlesticks` with
its inner helper `detectOutliers`, lines 94-171).

Prices, timestamps and volumes are modelled as exact rationals (the JS code
uses IEEE doubles; every claim under study is about the algorithmic structure,
which the rational model reproduces faithfully for inputs on which the double
arithmetic is exact). Candle records carry the internal bookkeeping flag
`original` exactly as the JS objects do; it is stripped before the response,
as in line 162 of the source.
-/

namespace BinanceServer

/-- A formatted candle, as produced by the first pass (lines 99-107 of
`binance_server.js`): parsed numeric fields plus the internal `original`
bookkeeping flag. The JS field `open` is a Lean keyword, so it is called
`open_` here. -/
structure Candle where
  time : ℚ
  open_ : ℚ
  high : ℚ
  low : ℚ
  close : ℚ
  volume : ℚ
  original : Bool
deriving Repr, DecidableEq

/-- A response candle after the `original` flag has been stripped
(line 162 of `binance_server.js`). -/
structure CleanCandle where
  time : ℚ
  open_ : ℚ
  high : ℚ
  low : ℚ
  close : ℚ
  volume : ℚ
deriving Repr, DecidableEq

/-- Drops the internal `original` flag: `({ original, ...rest }) => rest`
(line 162). -/
def stripOriginal (c : Candle) : CleanCandle :=
  ⟨c.time, c.open_, c.high, c.low, c.close, c.volume⟩

/-- Typical price of a candle: `(c.high + c.low + c.close) / 3`
(line 114). -/
def typicalPrice (c : Candle) : ℚ :=
  (c.high + c.low + c.close) / 3

/-- Ascending numeric sort, the model of the JS `sort((a, b) => a - b)`
(lines 117 and 122). On rationals any comparison-based ascending sort
produces the same list, so insertion sort is used. -/
def sortAsc (l : List ℚ) : List ℚ :=
  List.insertionSort (· ≤ ·) l

/-- The record returned by `detectOutliers` (line 129). -/
structure OutlierStats where
  median : ℚ
  mad : ℚ
  threshold : ℚ
  lowerThreshold : ℚ
deriving Repr, DecidableEq

/-- The scale factor `1.4826` of line 126, exact. -/
def madScale : ℚ := 14826 / 10000

/-- Embedding of `detectOutliers` (lines 110-130 of `binance_server.js`).
`sorted[Math.floor(sorted.length / 2)]` is modelled with `getD` and
default `0`; every claim under study concerns non-empty input, where the
index is in range and the default is never consulted. Note that, as in the
source, the deviations are computed from the *sorted* typical prices
(line 121) and then sorted in place (line 122). -/
def detectOutliers (candles : List Candle) : OutlierStats :=
  let multiplier : ℚ := 5
  let typicalPrices := candles.map typicalPrice
  let sorted := sortAsc typicalPrices
  let median := sorted.getD (sorted.length / 2) 0
  let deviations := sortAsc (sorted.map (fun p => |p - median|))
  let mad := deviations.getD (deviations.length / 2) 0
  let threshold := median + multiplier * madScale * mad
  let lowerThreshold := median - multiplier * madScale * mad
  ⟨median, mad, threshold, lowerThreshold⟩

/-- The outlier test of lines 143-147:
`isOutlierHigh || isOutlierLow` where
`isOutlierHigh = high > threshold || high < lowerThreshold` and
`isOutlierLow = low > threshold || low < lowerThreshold`. -/
def isOutlier (threshold lowerThreshold : ℚ) (c : Candle) : Bool :=
  (decide (c.high > threshold) || decide (c.high < lowerThreshold)) ||
    (decide (c.low > threshold) || decide (c.low < lowerThreshold))

/-- The corrected candle built on lines 148-153: keep the previous valid
candle's price fields, the current candle's time and volume, and mark it
as corrected. -/
def correctWith (p c : Candle) : Candle :=
  { p with time := c.time, volume := c.volume, original := false }

/-- The scan loop of lines 138-159: `previousValidCandle` starts as `none`;
a candle is corrected only when a previous valid candle exists *and* the
candle is an outlier, otherwise it is emitted unchanged and becomes the
previous valid candle. -/
def sanitizeGo (threshold lowerThreshold : ℚ) :
    Option Candle → List Candle → List Candle
  | _, [] => []
  | none, c :: rest =>
      c :: sanitizeGo threshold lowerThreshold (some c) rest
  | some p, c :: rest =>
      if isOutlier threshold lowerThreshold c then
        correctWith p c :: sanitizeGo threshold lowerThreshold (some p) rest
      else
        c :: sanitizeGo threshold lowerThreshold (some c) rest

/-- The value of `previousValidCandle` after the loop of lines 138-159 has
consumed the given candles, starting from the given state. -/
def stateGo (threshold lowerThreshold : ℚ) :
    Option Candle → List Candle → Option Candle
  | prev, [] => prev
  | none, c :: rest => stateGo threshold lowerThreshold (some c) rest
  | some p, c :: rest =>
      if isOutlier threshold lowerThreshold c then
        stateGo threshold lowerThreshold (some p) rest
      else
        stateGo threshold lowerThreshold (some c) rest

/-- The sanitizing pass (lines 132-159): thresholds are computed once by
`detectOutliers` over the whole input and held fixed during the scan. -/
def sanitize (candles : List Candle) : List Candle :=
  let s := detectOutliers candles
  sanitizeGo s.threshold s.lowerThreshold none candles

/-- `finalCandles` of line 162: the sanitized list with the `original`
flag removed. -/
def finalCandles (candles : List Candle) : List CleanCandle :=
  (sanitize candles).map stripOriginal

/-- The 5xx error payload shape of lines 167-170. -/
structure ErrorPayload where
  error : String
  details : Option String
deriving Repr, DecidableEq

/-- The HTTP outcome of the `getCandlesticks` route handler. -/
inductive CandlesResponse where
  | ok (status : Nat) (body : List CleanCandle)
  | fail (status : Nat) (payload : ErrorPayload)
deriving Repr, DecidableEq

/-- The payload produced by the catch block (lines 165-171) for the
empty-input error thrown on line 95. -/
def emptyInputPayload : ErrorPayload :=
  ⟨"No candle data received from Binance",
    some "Failed to fetch candle data from Binance API"⟩

/-- Embedding of the `getCandlesticks` handler (lines 85-172) as a function
of the provider response: `none` models a falsy `candles` value, an empty
list models a zero-length response; both throw on line 95, and the catch
block reports HTTP 500 with the `{ error, details }` payload. Otherwise
the sanitized candles are returned with status 200. -/
def getCandlesticks (resp : Option (List Candle)) : CandlesResponse :=
  match resp with
  | none => .fail 500 emptyInputPayload
  | some candles =>
      if candles.length = 0 then .fail 500 emptyInputPayload
      else .ok 200 (finalCandles candles)

/-! ### General lemmas about the scan loop and the sorting step -/

theorem sanitizeGo_length (t lt : ℚ) (prev : Option Candle) (l : List Candle) :
    (sanitizeGo t lt prev l).length = l.length := by
  induction l generalizing prev with
  | nil => cases prev <;> rfl
  | cons c rest ih =>
    cases prev with
    | none => simp [sanitizeGo, ih]
    | some p =>
      by_cases h : isOutlier t lt c
      · simp [sanitizeGo, h, ih]
      · simp [sanitizeGo, h, ih]

theorem sanitizeGo_append (t lt : ℚ) (prev : Option Candle) (l1 l2 : List Candle) :
    sanitizeGo t lt prev (l1 ++ l2) =
      sanitizeGo t lt prev l1 ++ sanitizeGo t lt (stateGo t lt prev l1) l2 := by
  induction l1 generalizing prev with
  | nil => cases prev <;> rfl
  | cons c rest ih =>
    cases prev with
    | none => simp [sanitizeGo, stateGo, ih]
    | some p =>
      by_cases h : isOutlier t lt c
      · simp [sanitizeGo, stateGo, h, ih]
      · simp [sanitizeGo, stateGo, h, ih]

theorem stateGo_append (t lt : ℚ) (prev : Option Candle) (l1 l2 : List Candle) :
    stateGo t lt prev (l1 ++ l2) = stateGo t lt (stateGo t lt prev l1) l2 := by
  induction l1 generalizing prev with
  | nil => cases prev <;> rfl
  | cons c rest ih =>
    cases prev with
    | none => simp [stateGo, ih]
    | some p =>
      by_cases h : isOutlier t lt c
      · simp [stateGo, h, ih]
      · simp [stateGo, h, ih]

theorem sanitizeGo_timeVolume (t lt : ℚ) (prev : Option Candle) (l : List Candle)
    (i : ℕ) :
    ((sanitizeGo t lt prev l)[i]?).map (fun c => (c.time, c.volume)) =
      (l[i]?).map (fun c => (c.time, c.volume)) := by
  induction l generalizing prev i with
  | nil => cases prev <;> rfl
  | cons c rest ih =>
    cases prev with
    | none =>
      cases i with
      | zero => simp [sanitizeGo]
      | succ n => simpa [sanitizeGo] using ih (some c) n
    | some p =>
      by_cases h : isOutlier t lt c
      · cases i with
        | zero => simp [sanitizeGo, h, correctWith]
        | succ n => simpa [sanitizeGo, h] using ih (some p) n
      · cases i with
        | zero => simp [sanitizeGo, h]
        | succ n => simpa [sanitizeGo, h] using ih (some c) n

theorem sanitizeGo_of_clean (t lt : ℚ) (prev : Option Candle) (l : List Candle)
    (h : ∀ c ∈ l, isOutlier t lt c = false) :
    sanitizeGo t lt prev l = l := by
  induction l generalizing prev with
  | nil => cases prev <;> rfl
  | cons c rest ih =>
    have hc : isOutlier t lt c = false := h c (List.mem_cons_self c rest)
    have hrest : ∀ x ∈ rest, isOutlier t lt x = false := fun x hx =>
      h x (List.mem_cons_of_mem c hx)
    cases prev with
    | none => simp [sanitizeGo, ih _ hrest]
    | some p => simp [sanitizeGo, hc, ih _ hrest]

theorem sortAsc_perm (l : List ℚ) : List.Perm (sortAsc l) l :=
  List.perm_insertionSort _ l

theorem sortAsc_sorted (l : List ℚ) : List.Sorted (· ≤ ·) (sortAsc l) :=
  List.sorted_insertionSort _ l

theorem sortAsc_length (l : List ℚ) : (sortAsc l).length = l.length :=
  List.length_insertionSort _ l

theorem sortAsc_map_sortAsc (f : ℚ → ℚ) (l : List ℚ) :
    sortAsc ((sortAsc l).map f) = sortAsc (l.map f) := by
  exact List.eq_of_perm_of_sorted
    (((sortAsc_perm _).trans ((sortAsc_perm l).map f)).trans (sortAsc_perm _).symm)
    (sortAsc_sorted _) (sortAsc_sorted _)

theorem stateGo_accept_then_correct (t lt : ℚ) (pre : List Candle) (a b : Candle)
    (hacc : stateGo t lt none pre = none ∨ isOutlier t lt a = false)
    (hb : isOutlier t lt b = true) :
    stateGo t lt none (pre ++ [a, b]) = some a := by
  rw [stateGo_append]
  rcases hacc with h | h
  · rw [h]; simp [stateGo, hb]
  · cases hs : stateGo t lt none pre with
    | none => simp [stateGo, hb]
    | some p => simp [stateGo, h, hb]

theorem sanitizeGo_accept_then_correct (t lt : ℚ) (pre : List Candle) (a b : Candle)
    (post : List Candle)
    (hacc : stateGo t lt none pre = none ∨ isOutlier t lt a = false)
    (hb : isOutlier t lt b = true) :
    (sanitizeGo t lt none (pre ++ a :: b :: post))[pre.length]? = some a ∧
      (sanitizeGo t lt none (pre ++ a :: b :: post))[pre.length + 1]? =
        some (correctWith a b) := by
  have htail : sanitizeGo t lt (stateGo t lt none pre) (a :: b :: post) =
      a :: correctWith a b :: sanitizeGo t lt (some a) post := by
    rcases hacc with h | h
    · rw [h]; simp [sanitizeGo, hb]
    · cases hs : stateGo t lt none pre with
      | none => simp [sanitizeGo, hb]
      | some p => simp [sanitizeGo, h, hb]
  have hlen : (sanitizeGo t lt none pre).length = pre.length :=
    sanitizeGo_length t lt none pre
  rw [sanitizeGo_append, htail]
  constructor
  · rw [List.getElem?_append_right (by omega)]
    simp [hlen]
  · rw [List.getElem?_append_right (by omega)]
    simp [hlen]

/-! ### Concrete inputs used by counterexamples and witnesses -/

/-- A flat candle whose prices are all 100, used in the concrete inputs. -/
def flatCandle (i : ℚ) : Candle := ⟨i, 100, 100, 100, 100, 1, true⟩

/-- First candle of the leading-outlier run: all prices at 1000. -/
def leadOut0 : Candle := ⟨0, 1000, 1000, 1000, 1000, 10, true⟩

/-- Second candle of the leading-outlier run: all prices at 2000. -/
def leadOut1 : Candle := ⟨1, 2000, 2000, 2000, 2000, 20, true⟩

/-- An input starting with two outlier candles followed by three flat ones.
Its typical prices are 1000, 2000, 100, 100, 100, so the median is 100, the
MAD is 0 and both thresholds are 100: the first two candles are flagged. -/
def leadingOutlierInput : List Candle :=
  [leadOut0, leadOut1, flatCandle 2, flatCandle 3, flatCandle 4]

/-- A spiked candle (high 3000) with distinctive time and volume. -/
def spikeB : Candle := ⟨1, 70, 3000, 60, 80, 7, true⟩

/-- An accepted flat candle followed by a spiked one, then flat tail:
median 100, MAD 0, thresholds 100, only the spike flagged. -/
def substitutionInput : List Candle :=
  flatCandle 0 :: spikeB :: [flatCandle 2, flatCandle 3, flatCandle 4]

/-- A fully clean input: three identical flat candles, none flagged. -/
def cleanInput : List Candle := [flatCandle 0, flatCandle 1, flatCandle 2]

/-- A spiked candle used for the degenerate-band witness. -/
def degSpike : Candle := ⟨3, 100, 3000, 90, 110, 2, true⟩

/-- Three flat candles and one spike: the MAD of this input is 0. -/
def degenerateInput : List Candle :=
  [flatCandle 0, flatCandle 1, flatCandle 2, degSpike]

/-! ### Spec-side formulations of the statistics, for the refinement claim -/

/-- The median as the spec words it: the element at index floor(n/2) of the
ascending-sorted series (low-median convention), where n is the length of
the series itself. -/
def medianSpec (l : List ℚ) : ℚ :=
  (sortAsc l).getD (l.length / 2) 0

/-- The MAD as the spec words it: for every element of the series itself
(not of its sorted copy), take the absolute deviation from the median, sort
the deviations ascending and take the element at floor(n/2). -/
def madSpec (l : List ℚ) : ℚ :=
  medianSpec (l.map (fun p => |p - medianSpec l|))

theorem detectOutliers_median (candles : List Candle) :
    (detectOutliers candles).median = medianSpec (candles.map typicalPrice) := by
  simp only [detectOutliers, medianSpec, sortAsc_length]

theorem detectOutliers_mad (candles : List Candle) :
    (detectOutliers candles).mad = madSpec (candles.map typicalPrice) := by
  simp only [detectOutliers, madSpec, medianSpec, sortAsc_map_sortAsc,
    sortAsc_length, List.length_map]

theorem detectOutliers_threshold (candles : List Candle) :
    (detectOutliers candles).threshold =
      (detectOutliers candles).median +
        5 * madScale * (detectOutliers candles).mad := rfl

theorem detectOutliers_lowerThreshold (candles : List Candle) :
    (detectOutliers candles).lowerThreshold =
      (detectOutliers candles).median -
        5 * madScale * (detectOutliers candles).mad := rfl

/-! ### Claim theorems -/

/-- Claim C3: the detection statistics are computed exactly as specified:
the typical price is (high + low + close) / 3; the median is the element at
index floor(n/2) of the ascending-sorted typical-price series (low-median
convention); the MAD is the element at index floor(n/2) of the
ascending-sorted absolute deviations of the typical prices from the median;
the thresholds are median plus and minus 5 * 1.4826 * MAD; and they are
computed once over the whole input and held fixed during the scan. -/
theorem C3_detection_statistics (candles : List Candle) :
    (∀ c : Candle, typicalPrice c = (c.high + c.low + c.close) / 3) ∧
    (detectOutliers candles).median = medianSpec (candles.map typicalPrice) ∧
    (detectOutliers candles).mad = madSpec (candles.map typicalPrice) ∧
    (detectOutliers candles).threshold =
      (detectOutliers candles).median +
        5 * (14826 / 10000) * (detectOutliers candles).mad ∧
    (detectOutliers candles).lowerThreshold =
      (detectOutliers candles).median -
        5 * (14826 / 10000) * (detectOutliers candles).mad ∧
    sanitize candles =
      sanitizeGo (detectOutliers candles).threshold
        (detectOutliers candles).lowerThreshold none candles :=
  ⟨fun _ => rfl, detectOutliers_median candles, detectOutliers_mad candles,
    detectOutliers_threshold candles, detectOutliers_lowerThreshold candles, rfl⟩

/-- Claim C4: a candle is flagged iff high > upperThreshold OR
high < lowerThreshold OR low > upperThreshold OR low < lowerThreshold;
high and low are each tested against both bounds, while open, close, time
and volume are never consulted by the test. -/
theorem C4_flagging_condition (t lt : ℚ) (c : Candle) :
    (isOutlier t lt c = true ↔
      (c.high > t ∨ c.high < lt ∨ c.low > t ∨ c.low < lt)) ∧
    (∀ (tm o cl v : ℚ) (og : Bool),
      isOutlier t lt ⟨tm, o, c.high, c.low, cl, v, og⟩ = isOutlier t lt c) := by
  constructor
  · simp [isOutlier, or_assoc]
  · intro tm o cl v og
    rfl

/-- Claim C6: the output sequence has exactly the same length as the input,
both before and after the internal flag is stripped, and it is emitted in
the original input order: the candle at every output position carries the
time (the ordering key of the sequence) of the input candle at that same
position. -/
theorem C6_length_and_order (candles : List Candle) :
    (sanitize candles).length = candles.length ∧
    (finalCandles candles).length = candles.length ∧
    (∀ i : ℕ, ((sanitize candles)[i]?).map Candle.time =
      (candles[i]?).map Candle.time) ∧
    (∀ i : ℕ, ((finalCandles candles)[i]?).map CleanCandle.time =
      (candles[i]?).map Candle.time) := by
  have h : (sanitize candles).length = candles.length :=
    sanitizeGo_length (detectOutliers candles).threshold
      (detectOutliers candles).lowerThreshold none candles
  have htime : ∀ i : ℕ, ((sanitize candles)[i]?).map Candle.time =
      (candles[i]?).map Candle.time := by
    intro i
    have ht : ((sanitize candles)[i]?).map (fun c => (c.time, c.volume)) =
        (candles[i]?).map (fun c => (c.time, c.volume)) :=
      sanitizeGo_timeVolume (detectOutliers candles).threshold
        (detectOutliers candles).lowerThreshold none candles i
    have hp := congrArg (Option.map Prod.fst) ht
    simpa [Option.map_map, Function.comp] using hp
  refine ⟨h, by simpa [finalCandles] using h, htime, ?_⟩
  intro i
  have hi := htime i
  simp only [finalCandles, List.getElem?_map, Option.map_map] at *
  simpa [Function.comp, stripOriginal] using hi

/-- Claim C7: at every index, the emitted candle keeps the input candle's
time and volume; volume is always passed through unmodified, also for
corrected candles. -/
theorem C7_time_volume_fidelity (candles : List Candle) (i : ℕ) :
    ((finalCandles candles)[i]?).map CleanCandle.time =
      (candles[i]?).map Candle.time ∧
    ((finalCandles candles)[i]?).map CleanCandle.volume =
      (candles[i]?).map Candle.volume := by
  have h : ((sanitize candles)[i]?).map (fun c => (c.time, c.volume)) =
      (candles[i]?).map (fun c => (c.time, c.volume)) :=
    sanitizeGo_timeVolume (detectOutliers candles).threshold
      (detectOutliers candles).lowerThreshold none candles i
  cases hs : (sanitize candles)[i]? with
  | none =>
    cases hc : candles[i]? with
    | none => simp [finalCandles, List.getElem?_map, hs, hc]
    | some c => rw [hs, hc] at h; simp at h
  | some s =>
    cases hc : candles[i]? with
    | none => rw [hs, hc] at h; simp at h
    | some c =>
      rw [hs, hc] at h
      simp only [Option.map_some', Option.some.injEq, Prod.mk.injEq] at h
      simp [finalCandles, List.getElem?_map, hs, hc, stripOriginal, h.1, h.2]

/-- Claim C9: the first emitted candle always equals the first input candle
in every field, flagged or not, because no previous candle exists yet. -/
theorem C9_first_candle_passthrough (c : Candle) (rest : List Candle) :
    (sanitize (c :: rest))[0]? = some c ∧
    (finalCandles (c :: rest))[0]? = some (stripOriginal c) := by
  constructor <;> simp [sanitize, sanitizeGo, finalCandles]

/-- Claim C1 counterexample: in an input whose first two candles are both
flagged, the first flagged candle (for which no previous valid candle
exists) IS promoted to previousValidCandle, and the second flagged candle
does not pass through unmodified: it is corrected to the first outlier's
prices. This refutes the claim that a leading flagged candle is never set
as lastAccepted and that a run of leading outliers all pass through. -/
theorem C1_counterexample :
    isOutlier (detectOutliers leadingOutlierInput).threshold
        (detectOutliers leadingOutlierInput).lowerThreshold leadOut0 = true ∧
    isOutlier (detectOutliers leadingOutlierInput).threshold
        (detectOutliers leadingOutlierInput).lowerThreshold leadOut1 = true ∧
    stateGo (detectOutliers leadingOutlierInput).threshold
        (detectOutliers leadingOutlierInput).lowerThreshold none [leadOut0] =
      some leadOut0 ∧
    (sanitize leadingOutlierInput)[1]? = some (correctWith leadOut0 leadOut1) ∧
    (sanitize leadingOutlierInput)[1]? ≠ leadingOutlierInput[1]? := by
  refine ⟨?_, ?_, rfl, ?_, ?_⟩ <;>
    norm_num [sanitize, detectOutliers, typicalPrice, sortAsc,
      List.insertionSort, List.orderedInsert, madScale, sanitizeGo, isOutlier,
      correctWith, flatCandle, leadOut0, leadOut1, leadingOutlierInput]

/-- Claim C1 (amended): a candle that arrives while no previous valid
candle exists is emitted unchanged but IS set as previousValidCandle, even
when it is flagged; consequently only the first candle of a run of leading
outliers passes through unmodified, and each subsequent flagged candle is
corrected to the first candle's open/high/low/close. -/
theorem C1_leading_outlier_promoted (candles : List Candle) (a b : Candle)
    (rest : List Candle) (he : candles = a :: b :: rest)
    (hb : isOutlier (detectOutliers candles).threshold
        (detectOutliers candles).lowerThreshold b = true) :
    (sanitize candles)[0]? = some a ∧
    (sanitize candles)[1]? = some (correctWith a b) ∧
    stateGo (detectOutliers candles).threshold
        (detectOutliers candles).lowerThreshold none [a] = some a := by
  subst he
  refine ⟨?_, ?_, rfl⟩
  · simp [sanitize, sanitizeGo]
  · simp [sanitize, sanitizeGo, hb]

/-- Witness for the amended C1 theorem at a concrete leading-outlier run. -/
theorem C1_leading_outlier_witness :
    isOutlier (detectOutliers leadingOutlierInput).threshold
        (detectOutliers leadingOutlierInput).lowerThreshold leadOut1 = true ∧
    (sanitize leadingOutlierInput)[0]? = some leadOut0 ∧
    (sanitize leadingOutlierInput)[1]? = some (correctWith leadOut0 leadOut1) :=
  have hb : isOutlier (detectOutliers leadingOutlierInput).threshold
      (detectOutliers leadingOutlierInput).lowerThreshold leadOut1 = true := by
    norm_num [detectOutliers, typicalPrice, sortAsc, List.insertionSort,
      List.orderedInsert, madScale, isOutlier, flatCandle, leadOut0, leadOut1,
      leadingOutlierInput]
  have h := C1_leading_outlier_promoted leadingOutlierInput leadOut0 leadOut1
    [flatCandle 2, flatCandle 3, flatCandle 4] rfl hb
  ⟨hb, h.1, h.2.1⟩

/-- Claim C2: when candle b is flagged and its predecessor a was accepted
(the else branch ran at a: either no previous valid candle existed or a is
unflagged), the output at b's position is the corrected candle carrying a's
open/high/low/close and b's own time and volume, the output at a's position
is a itself, and the correction leaves previousValidCandle at a. -/
theorem C2_substitution (pre post : List Candle) (a b : Candle) (t lt : ℚ)
    (ht : t = (detectOutliers (pre ++ a :: b :: post)).threshold)
    (hlt : lt = (detectOutliers (pre ++ a :: b :: post)).lowerThreshold)
    (hacc : stateGo t lt none pre = none ∨ isOutlier t lt a = false)
    (hb : isOutlier t lt b = true) :
    (sanitize (pre ++ a :: b :: post))[pre.length]? = some a ∧
    (sanitize (pre ++ a :: b :: post))[pre.length + 1]? =
      some (correctWith a b) ∧
    (correctWith a b).open_ = a.open_ ∧ (correctWith a b).high = a.high ∧
    (correctWith a b).low = a.low ∧ (correctWith a b).close = a.close ∧
    (correctWith a b).time = b.time ∧ (correctWith a b).volume = b.volume ∧
    stateGo t lt none (pre ++ [a, b]) = some a := by
  subst ht
  subst hlt
  have h := sanitizeGo_accept_then_correct _ _ pre a b post hacc hb
  exact ⟨h.1, h.2, rfl, rfl, rfl, rfl, rfl, rfl,
    stateGo_accept_then_correct _ _ pre a b hacc hb⟩

/-- Witness for C2 at a concrete input: an accepted flat candle followed by
a flagged spike; the spike's slot receives the flat candle's prices. -/
theorem C2_substitution_witness :
    isOutlier (detectOutliers substitutionInput).threshold
        (detectOutliers substitutionInput).lowerThreshold spikeB = true ∧
    (sanitize substitutionInput)[0]? = some (flatCandle 0) ∧
    (sanitize substitutionInput)[1]? = some (correctWith (flatCandle 0) spikeB) :=
  have hb : isOutlier (detectOutliers substitutionInput).threshold
      (detectOutliers substitutionInput).lowerThreshold spikeB = true := by
    norm_num [detectOutliers, typicalPrice, sortAsc, List.insertionSort,
      List.orderedInsert, madScale, isOutlier, flatCandle, spikeB,
      substitutionInput]
  have h := C2_substitution [] [flatCandle 2, flatCandle 3, flatCandle 4]
    (flatCandle 0) spikeB (detectOutliers substitutionInput).threshold
    (detectOutliers substitutionInput).lowerThreshold rfl rfl (Or.inl rfl) hb
  ⟨hb, h.1, h.2.1⟩

/-- Claim C5: when no candle of the input is flagged under the thresholds
computed from that input, the sanitized output equals the input
elementwise, and the final response is just the input with the internal
flag stripped. -/
theorem C5_idempotence_on_clean (candles : List Candle)
    (h : ∀ c ∈ candles,
      isOutlier (detectOutliers candles).threshold
        (detectOutliers candles).lowerThreshold c = false) :
    sanitize candles = candles ∧
    finalCandles candles = candles.map stripOriginal := by
  have hs : sanitize candles = candles :=
    sanitizeGo_of_clean _ _ none candles h
  exact ⟨hs, by rw [finalCandles, hs]⟩

/-- Witness for C5 at a concrete clean input of three flat candles. -/
theorem C5_idempotence_witness :
    (∀ c ∈ cleanInput,
      isOutlier (detectOutliers cleanInput).threshold
        (detectOutliers cleanInput).lowerThreshold c = false) ∧
    sanitize cleanInput = cleanInput :=
  have h : ∀ c ∈ cleanInput,
      isOutlier (detectOutliers cleanInput).threshold
        (detectOutliers cleanInput).lowerThreshold c = false := by
    intro c hc
    simp only [cleanInput, List.mem_cons, List.not_mem_nil, or_false] at hc
    rcases hc with h1 | h1 | h1 <;> subst h1 <;>
      norm_num [detectOutliers, typicalPrice, sortAsc, List.insertionSort,
        List.orderedInsert, madScale, isOutlier, flatCandle, cleanInput]
  ⟨h, (C5_idempotence_on_clean cleanInput h).1⟩

/-- Claim C8: a missing or empty provider response is rejected before the
sanitizer runs and reported as HTTP 500 with the error payload of shape
error plus optional details; on any non-empty response the handler returns
the sanitized candles, the sanitizer being a total function. -/
theorem C8_empty_input_and_errors :
    getCandlesticks none = CandlesResponse.fail 500 emptyInputPayload ∧
    getCandlesticks (some []) = CandlesResponse.fail 500 emptyInputPayload ∧
    emptyInputPayload.error = "No candle data received from Binance" ∧
    emptyInputPayload.details =
      some "Failed to fetch candle data from Binance API" ∧
    (∀ candles : List Candle, candles ≠ [] →
      getCandlesticks (some candles) =
        CandlesResponse.ok 200 (finalCandles candles)) := by
  refine ⟨rfl, rfl, rfl, rfl, ?_⟩
  intro candles hne
  simp [getCandlesticks, List.length_eq_zero, hne]

/-- Witness for C8 at a concrete non-empty provider response. -/
theorem C8_errors_witness :
    getCandlesticks (some [flatCandle 0]) =
      CandlesResponse.ok 200 (finalCandles [flatCandle 0]) :=
  C8_empty_input_and_errors.2.2.2.2 [flatCandle 0] (List.cons_ne_nil _ _)

/-- Claim C10: when the computed MAD is 0, both thresholds collapse to the
median, every candle whose high is strictly above the median or whose low
is strictly below it is flagged, and once a previous valid candle is
stored such a candle is replaced by the stored candle's prices. -/
theorem C10_degenerate_band (candles : List Candle)
    (h : (detectOutliers candles).mad = 0) :
    (detectOutliers candles).threshold = (detectOutliers candles).median ∧
    (detectOutliers candles).lowerThreshold = (detectOutliers candles).median ∧
    (∀ c : Candle,
      c.high > (detectOutliers candles).median ∨
        c.low < (detectOutliers candles).median →
      isOutlier (detectOutliers candles).threshold
        (detectOutliers candles).lowerThreshold c = true) ∧
    (∀ (p c : Candle) (rest : List Candle),
      c.high > (detectOutliers candles).median ∨
        c.low < (detectOutliers candles).median →
      sanitizeGo (detectOutliers candles).threshold
          (detectOutliers candles).lowerThreshold (some p) (c :: rest) =
        correctWith p c ::
          sanitizeGo (detectOutliers candles).threshold
            (detectOutliers candles).lowerThreshold (some p) rest) := by
  have ht : (detectOutliers candles).threshold =
      (detectOutliers candles).median := by
    rw [detectOutliers_threshold, h]; ring
  have hlt : (detectOutliers candles).lowerThreshold =
      (detectOutliers candles).median := by
    rw [detectOutliers_lowerThreshold, h]; ring
  have hflag : ∀ c : Candle,
      c.high > (detectOutliers candles).median ∨
        c.low < (detectOutliers candles).median →
      isOutlier (detectOutliers candles).threshold
        (detectOutliers candles).lowerThreshold c = true := by
    intro c hc
    rw [ht, hlt]
    rcases hc with hc | hc
    · simp [isOutlier, hc]
    · simp [isOutlier, hc]
  refine ⟨ht, hlt, hflag, ?_⟩
  intro p c rest hc
  simp [sanitizeGo, hflag c hc]

/-- Witness for C10 at a concrete input whose MAD is 0: the spike is above
the median and gets replaced by the stored candle's prices. -/
theorem C10_degenerate_witness :
    (detectOutliers degenerateInput).mad = 0 ∧
    (detectOutliers degenerateInput).threshold =
      (detectOutliers degenerateInput).median ∧
    sanitizeGo (detectOutliers degenerateInput).threshold
        (detectOutliers degenerateInput).lowerThreshold
        (some (flatCandle 0)) [degSpike] =
      [correctWith (flatCandle 0) degSpike] :=
  have h : (detectOutliers degenerateInput).mad = 0 := by
    norm_num [detectOutliers, typicalPrice, sortAsc, List.insertionSort,
      List.orderedInsert, madScale, flatCandle, degSpike, degenerateInput]
  have hhigh : degSpike.high > (detectOutliers degenerateInput).median ∨
      degSpike.low < (detectOutliers degenerateInput).median :=
    Or.inl (by
      norm_num [detectOutliers, typicalPrice, sortAsc, List.insertionSort,
        List.orderedInsert, madScale, flatCandle, degSpike, degenerateInput])
  ⟨h, (C10_degenerate_band degenerateInput h).1,
    (C10_degenerate_band degenerateInput h).2.2.2 (flatCandle 0) degSpike [] hhigh⟩

end BinanceServer
